import Mathlib

/-
Verification development for the sandboxed-execution / self-healing core of
the CodeGenerator_Tester repository.

The embedding covers:
  * src/utils/file_manager.py, class DockerSandbox: run_code (files branch,
    the only call shape the orchestrator uses), including manifest lookup,
    dependency inference, hash-based install caching, pip install, the
    execution phase, and the blanket exception handlers;
  * src/app.py: ai_self_healing_workflow (the bounded repair loop).

External effects (the Docker runtime and the LLM patch generator) are
modelled as oracles: an Env record holds the outcome of each container
command a single run_code call can issue, and the patch generator is a
function from the attempt index to either a raised exception or the parsed
path-to-content update map.  Mutation of the caller's files dict is modelled
by returning the updated FileSet; the issued container commands are
collected in a trace.
-/

namespace CodeGen

/-! ## Python-style string primitives

Small total reimplementations of the string operations the source uses
(`in`, `.lower()`, `.strip()`, `.endswith()`), working on the character
lists underlying Lean strings so that everything reduces in the kernel. -/

/-- Does the character list `s` start with `p`? -/
def startsWithL (p s : List Char) : Bool :=
  match p, s with
  | [], _ => true
  | _ :: _, [] => false
  | a :: ps, c :: cs => a == c && startsWithL ps cs

/-- Substring test on character lists: Python `pat in s`. -/
def containsL (pat : List Char) : List Char → Bool
  | [] => pat.isEmpty
  | c :: cs => startsWithL pat (c :: cs) || containsL pat cs

/-- Python `pat in s` for strings. -/
def strContains (s pat : String) : Bool := containsL pat.data s.data

/-- Python `s.endswith(suf)`. -/
def pyEndsWith (s suf : String) : Bool := startsWithL suf.data.reverse s.data.reverse

/-- Python `s.lower()` (ASCII case folding, which is all the source's
signature checks need). -/
def pyToLower (s : String) : String := ⟨s.data.map Char.toLower⟩

/-- The characters Python's str.strip() and the regex class \s treat as
whitespace (ASCII range). -/
def isWsChar (c : Char) : Bool :=
  c == ' ' || c == '\t' || c == '\n' || c == '\r' || c == '\x0b' || c == '\x0c'

/-- Python `s.strip()`. -/
def pyStrip (s : String) : String :=
  ⟨((s.data.dropWhile isWsChar).reverse.dropWhile isWsChar).reverse⟩

/-- Lexicographic comparison of character lists by code point, matching
Python string `<`. -/
def charListLt : List Char → List Char → Bool
  | [], [] => false
  | [], _ :: _ => true
  | _ :: _, [] => false
  | a :: as, b :: bs => if a < b then true else if b < a then false else charListLt as bs

/-- Python string `<`. -/
def strLtB (a b : String) : Bool := charListLt a.data b.data

/-- Insert into a sorted list of strings (ascending, Python order). -/
def insertSorted (x : String) : List String → List String
  | [] => [x]
  | y :: ys => if strLtB y x then y :: insertSorted x ys else x :: y :: ys

/-- Python `sorted(...)` for lists of strings. -/
def sortStrings (l : List String) : List String := l.foldr insertSorted []

/-! ## SHA-256

Faithful model of `hashlib.sha256(content.encode('utf-8')).hexdigest()`
used by `DockerSandbox._hash_file_content` (src/utils/file_manager.py:237).
Words are naturals reduced mod 2^32. -/

/-- Truncate to 32 bits. -/
def w32 (x : Nat) : Nat := x % 4294967296

/-- Rotate a 32-bit word right by `n`. -/
def rotr32 (n x : Nat) : Nat := w32 ((x >>> n) ||| (x <<< (32 - n)))

/-- UTF-8 encoding of one character (as byte values). -/
def utf8Bytes (c : Char) : List Nat :=
  let n := c.toNat
  if n < 128 then [n]
  else if n < 2048 then [192 + n / 64, 128 + n % 64]
  else if n < 65536 then [224 + n / 4096, 128 + (n / 64) % 64, 128 + n % 64]
  else [240 + n / 262144, 128 + (n / 4096) % 64, 128 + (n / 64) % 64, 128 + n % 64]

/-- Python `s.encode('utf-8')` as a list of byte values. -/
def strBytes (s : String) : List Nat := s.data.flatMap utf8Bytes

/-- SHA-256 round constants (decimal, FIPS 180-4 section 4.2.2). -/
def sha256K : List Nat :=
  [1116352408, 1899447441, 3049323471, 3921009573, 961987163,
   1508970993, 2453635748, 2870763221, 3624381080, 310598401,
   607225278, 1426881987, 1925078388, 2162078206, 2614888103,
   3248222580, 3835390401, 4022224774, 264347078, 604807628,
   770255983, 1249150122, 1555081692, 1996064986, 2554220882,
   2821834349, 2952996808, 3210313671, 3336571891, 3584528711,
   113926993, 338241895, 666307205, 773529912, 1294757372,
   1396182291, 1695183700, 1986661051, 2177026350, 2456956037,
   2730485921, 2820302411, 3259730800, 3345764771, 3516065817,
   3600352804, 4094571909, 275423344, 430227734, 506948616,
   659060556, 883997877, 958139571, 1322822218, 1537002063,
   1747873779, 1955562222, 2024104815, 2227730452, 2361852424,
   2428436474, 2756734187, 3204031479, 3329325298]

/-- SHA-256 initial hash state (decimal, FIPS 180-4 section 5.3.3). -/
def sha256H0 : List Nat :=
  [1779033703, 3144134277, 1013904242, 2773480762,
   1359893119, 2600822924, 528734635, 1541459225]

/-- Padding: append 0x80, zeros, and the 64-bit big-endian bit length. -/
def sha256pad (msg : List Nat) : List Nat :=
  let bitLen := msg.length * 8
  let z := (120 - (msg.length + 1) % 64) % 64
  msg ++ [0x80] ++ List.replicate z 0 ++
    ([56, 48, 40, 32, 24, 16, 8, 0].map fun k => (bitLen >>> k) % 256)

/-- Split a byte list into 64-byte blocks; `acc` carries the current block
reversed. -/
def chunks64Aux : List Nat → List Nat → List (List Nat)
  | [], acc => if acc.isEmpty then [] else [acc.reverse]
  | x :: xs, acc =>
    if acc.length = 63 then (x :: acc).reverse :: chunks64Aux xs []
    else chunks64Aux xs (x :: acc)

/-- Split a byte list into 64-byte blocks. -/
def blocks64 (l : List Nat) : List (List Nat) := chunks64Aux l []

/-- Pack bytes into big-endian 32-bit words. -/
def toWords : List Nat → List Nat
  | b0 :: b1 :: b2 :: b3 :: rest => (((b0 <<< 24) + (b1 <<< 16)) + ((b2 <<< 8) + b3)) :: toWords rest
  | _ => []

/-- Small sigma-0. -/
def smallSigmaA (x : Nat) : Nat := (rotr32 7 x) ^^^ (rotr32 18 x) ^^^ (x >>> 3)

/-- Small sigma-1. -/
def smallSigmaB (x : Nat) : Nat := (rotr32 17 x) ^^^ (rotr32 19 x) ^^^ (x >>> 10)

/-- Extend the 16 schedule words to 64, keeping the list reversed (head is
the latest word). -/
def extendRev : Nat → List Nat → List Nat
  | 0, ws => ws
  | k + 1, ws =>
    let g := fun i => ws.getD i 0
    extendRev k (w32 (g 15 + smallSigmaA (g 14) + g 6 + smallSigmaB (g 1)) :: ws)

/-- One SHA-256 compression round; the state is the 8-word working list. -/
def compressStep (st : List Nat) (kw : Nat × Nat) : List Nat :=
  match st with
  | [a, b, c, d, e, f, g, h] =>
    let bigS1 := (rotr32 6 e) ^^^ (rotr32 11 e) ^^^ (rotr32 25 e)
    let ch := (e &&& f) ^^^ ((e ^^^ 4294967295) &&& g)
    let temp1 := w32 (h + bigS1 + ch + kw.1 + kw.2)
    let bigS0 := (rotr32 2 a) ^^^ (rotr32 13 a) ^^^ (rotr32 22 a)
    let maj := (a &&& b) ^^^ (a &&& c) ^^^ (b &&& c)
    let temp2 := w32 (bigS0 + maj)
    [w32 (temp1 + temp2), a, b, c, w32 (d + temp1), e, f, g]
  | _ => st

/-- SHA-256 over a byte list, producing the eight 32-bit state words. -/
def sha256Words (msg : List Nat) : List Nat :=
  (blocks64 (sha256pad msg)).foldl
    (fun st block =>
      let ws := (extendRev 48 ((toWords block).reverse)).reverse
      let st2 := (sha256K.zip ws).foldl compressStep st
      (st.zip st2).map fun p => w32 (p.1 + p.2))
    sha256H0

/-- One lowercase hex digit. -/
def hexDigit (n : Nat) : Char := if n < 10 then Char.ofNat (48 + n) else Char.ofNat (87 + n)

/-- Eight hex digits of a 32-bit word. -/
def wordHex (x : Nat) : List Char := (List.range 8).map fun i => hexDigit ((x >>> (28 - 4 * i)) % 16)

/-- `DockerSandbox._hash_file_content` (src/utils/file_manager.py:237):
hex digest of the SHA-256 of the UTF-8 encoding. -/
def sha256hex (s : String) : String := ⟨((sha256Words (strBytes s)).map wordHex).flatten⟩

/-! ## FileSet: the project-files dict

Python dicts mapping relative path to text content, modelled as ordered
association lists with unique keys (insertion order preserved, as in
Python). -/

/-- Ordered path-to-content mapping. -/
abbrev FileSet := List (String × String)

/-- Python `files[k]` lookup / `k in files` support. -/
def dictGet (fs : FileSet) (k : String) : Option String :=
  match fs with
  | [] => none
  | kv :: rest => if kv.1 == k then some kv.2 else dictGet rest k

/-- Python `files[k] = v`: replace in place if present, else append. -/
def dictSet (fs : FileSet) (k v : String) : FileSet :=
  if (dictGet fs k).isSome then fs.map (fun kv => if kv.1 == k then (k, v) else kv)
  else fs ++ [(k, v)]

/-- Python `files.update(upd)`, applied in the iteration order of `upd`. -/
def dictUpdate (fs : FileSet) (upd : List (String × String)) : FileSet :=
  upd.foldl (fun acc kv => dictSet acc kv.1 kv.2) fs

/-! ## Execution results -/

/-- The stdout/stderr/exit-code triple `run_code` returns and the container
adapter produces (src/utils/file_manager.py:466). -/
structure ExecResult where
  stdout : String
  stderr : String
  exitCode : Int
deriving Repr, DecidableEq

/-! ## Dependency manifest resolution (src/utils/file_manager.py:249-330) -/

/-- The fixed priority list of recognized manifest names
(src/utils/file_manager.py:253). -/
def requirements_files : List String :=
  ["requirements.txt", "requirements.txt.txt", "requirements.txt.txt.txt",
   "requirements.txt.txt.txt.txt", "requirements.txt.txt.txt.txt.txt",
   "pyproject.toml", "setup.py", "Pipfile", "poetry.lock"]

/-- First recognized manifest present in the files dict, with its content
(the loop at src/utils/file_manager.py:267). -/
def findManifest (files : FileSet) : Option (String × String) :=
  requirements_files.findSome? fun n => (dictGet files n).map fun c => (n, c)

/-- Standard-library module names excluded from dependency inference
(src/utils/file_manager.py:303). -/
def pythonStdlibList : List String :=
  ["os", "sys", "json", "datetime", "logging", "pathlib", "typing", "re",
   "subprocess", "tempfile", "shutil", "uuid", "hashlib"]

/-- Module names treated as GUI toolkits (src/utils/file_manager.py:307). -/
def guiModuleList : List String := ["tkinter", "tk", "gui", "wx", "pygame", "matplotlib"]

/-- Python regex word character, ASCII range (the source scans `\w+`). -/
def isWordChar (c : Char) : Bool := c.isAlphanum || c == '_'

/-- Module captured by `kw\s+(\w+)` at the start of `cs`: the source's
patterns require the keyword, at least one whitespace character (which, as
in the regexes, may include newlines), then a word. -/
def importModuleAfter (kw : List Char) (cs : List Char) : Option String :=
  if startsWithL kw cs then
    let rest := cs.drop kw.length
    match rest with
    | [] => none
    | c :: _ =>
      if isWsChar c then
        let w := (rest.dropWhile isWsChar).takeWhile isWordChar
        if w.isEmpty then none else some ⟨w⟩
      else none
  else none

/-- The suffixes of `cs` that begin just after a newline (regex MULTILINE
line starts, other than the very beginning). -/
def lineStartsAux : List Char → List (List Char)
  | [] => []
  | c :: rest => (if c == '\n' then [rest] else []) ++ lineStartsAux rest

/-- All modules captured by the source's four import regexes
(src/utils/file_manager.py:292): at each line start, optionally skip
whitespace (`^\s*`), then match `import\s+(\w+)` or `from\s+(\w+)`.  The
patterns without `\s*` are subsumed.  (The rare case where one multi-line
match consumes a later line start of the same pattern is not modelled; on
line-structured sources the two agree.) -/
def importsIn (content : String) : List String :=
  (content.data :: lineStartsAux content.data).flatMap fun cs =>
    let stripped := cs.dropWhile isWsChar
    (importModuleAfter "import".data stripped).toList ++
      (importModuleAfter "from".data stripped).toList

/-- All import matches over the `.py` members of the files dict
(src/utils/file_manager.py:289). -/
def allImports (files : FileSet) : List String :=
  files.flatMap fun kv => if pyEndsWith kv.1 ".py" then importsIn kv.2 else []

/-- `detected_deps`, as the sorted deduplicated list the source feeds to
the synthesized manifest (`sorted(detected_deps)`). -/
def detectedDeps (files : FileSet) : List String :=
  sortStrings ((allImports files).filter (fun m => !(pythonStdlibList.contains m))).eraseDups

/-- `gui_dependencies` (only emptiness and membership matter). -/
def guiDeps (files : FileSet) : List String :=
  ((allImports files).filter (fun m => guiModuleList.contains m)).eraseDups

/-- The synthesized requirements.txt content
(src/utils/file_manager.py:316-324); `deps` is already sorted. -/
def synthesizeRequirements (deps gui : List String) : String :=
  let base := deps.foldl (fun acc d => acc ++ d ++ "\n") "# Auto-detected dependencies\n"
  if gui.isEmpty then base
  else base ++ "\n# GUI dependencies detected - may require system packages\n# For tkinter: apt-get install python3-tk\n# For matplotlib: apt-get install python3-tk python3-dev\n"

/-- The file-preparation step of `run_code` (src/utils/file_manager.py:249-330):
returns the (possibly mutated) files dict, `requirements_content` and
`requirements_file_used`.  When no recognized manifest exists but some
non-stdlib dependency is detected, a synthesized requirements.txt is
inserted into the caller's dict. -/
def prepareFiles (files0 : FileSet) : FileSet × Option String × Option String :=
  match findManifest files0 with
  | some nc => (files0, some nc.2, some nc.1)
  | none =>
    let deps := detectedDeps files0
    if deps.isEmpty then (files0, none, none)
    else
      let rc := synthesizeRequirements deps (guiDeps files0)
      (dictSet files0 "requirements.txt" rc, some rc, some "requirements.txt")

/-! ## The container-runtime oracle

`exec_in_container` (src/utils/file_manager.py:220) runs `subprocess.run`
with a timeout and no `check=True`: it either returns a completed process
or raises `subprocess.TimeoutExpired`.  `start_container` (line 192) and
`docker cp` (line 216) use `check=True` and so may raise a
`CalledProcessError` (or `FileNotFoundError` when the docker binary is
missing); we record such a raised exception as its message string. -/

/-- Outcome of one `exec_in_container` call. -/
inductive ExecOutcome where
  | ok (r : ExecResult)
  | timeout
deriving Repr, DecidableEq

/-- The outcomes of every container interaction one `run_code` call can
issue, in source order. -/
structure Env where
  /-- `start_container` (docker ps / docker run / mkdir). -/
  startResult : Except String Unit
  /-- `copy_files_to_container` (docker cp with check=True). -/
  copyResult : Except String Unit
  /-- `apt-get install` of GUI system packages (line 364). -/
  guiInstall : ExecOutcome
  /-- `cat /sandbox/.requirements_hash` (line 378). -/
  catHash : ExecOutcome
  /-- sentinel `python -c "import django; ..."` (line 387). -/
  djangoCheck : ExecOutcome
  /-- `test -f /sandbox/requirements.txt && echo exists` (line 392). -/
  checkReq : ExecOutcome
  /-- debug `cat /sandbox/requirements.txt` (line 398). -/
  catReq : ExecOutcome
  /-- the pip / pipenv install command (line 411). -/
  pipInstall : ExecOutcome
  /-- `echo <hash> > /sandbox/.requirements_hash` (line 423). -/
  storeHash : ExecOutcome
  /-- debug `pip list` (line 428). -/
  pipList : ExecOutcome
  /-- the entry-point / pytest command (line 455/457). -/
  mainExec : ExecOutcome

/-- Container commands, recorded in issue order. -/
inductive Cmd where
  | dockerStart
  | copyFiles
  | aptGetGui
  | catHashFile
  | djangoImportCheck
  | checkReqExists
  | catReqFile
  | pipInstallCmd (args : List String)
  | storeHashCmd
  | pipListCmd
  | runMain (args : List String) (timeoutUsed : Nat)
deriving Repr, DecidableEq

/-- What one `run_code` call produces: the returned result dict, the files
dict after any in-place mutation, and the container commands issued. -/
structure RunOut where
  result : ExecResult
  files : FileSet
  trace : List Cmd
deriving Repr, DecidableEq

/-- The synthetic result produced by the `except subprocess.TimeoutExpired`
handler (src/utils/file_manager.py:471-473). -/
def timeoutResult : ExecResult := ⟨"", "Execution timed out", 124⟩

/-- Issue one container command: on timeout the enclosing try/except turns
the whole call into the 124 sentinel (the already-performed dict mutation
and issued commands survive); otherwise continue with the completed
process. -/
def withExec (o : ExecOutcome) (files : FileSet) (t : List Cmd) (k : ExecResult → RunOut) : RunOut :=
  match o with
  | .timeout => ⟨timeoutResult, files, t⟩
  | .ok r => k r

/-- The explanatory note appended for GUI-related failures
(src/utils/file_manager.py:463-464). -/
def guiNote : String := "\n\nNOTE: This application requires GUI support which is not available in this Docker environment. The application was generated as a console-based version to work in this environment."

/-- Execution phase (src/utils/file_manager.py:432-470): detect Flask to
clamp the timeout, run pytest when test_main.py is a key else run the main
file, and post-process stderr of failing results that carry a GUI
signature.  (The `elif test_code` arm is dead in the files call shape the
orchestrator uses, where code and test_code are None.) -/
def phaseExec (env : Env) (files : FileSet) (main_file : String) (timeout : Nat) (t : List Cmd) : RunOut :=
  let isFlask := files.any fun kv =>
    pyEndsWith kv.1 ".py" && (strContains kv.2 "from flask import" || strContains kv.2 "Flask(")
  let cmd := if (dictGet files "test_main.py").isSome
    then ["pytest", "test_main.py", "--tb=short"]
    else ["python", main_file]
  let tu := if isFlask then min 60 timeout else timeout
  withExec env.mainExec files (t ++ [.runMain cmd tu]) fun r =>
    let stderr2 :=
      if r.exitCode != 0 && (strContains (pyToLower r.stderr) "tkinter" || strContains (pyToLower r.stderr) "libtk")
      then r.stderr ++ guiNote else r.stderr
    ⟨⟨r.stdout, stderr2, r.exitCode⟩, files, t ++ [.runMain cmd tu]⟩

/-- The package-manager command chosen from `requirements_file_used`
(src/utils/file_manager.py:401-409). -/
def pipCmdFor (reqUsed : Option String) : List String :=
  match reqUsed with
  | some n =>
    if pyEndsWith n ".toml" then ["pip", "install", "-e", "."]
    else if n == "setup.py" then ["pip", "install", "-e", "."]
    else if n == "Pipfile" then ["pipenv", "install"]
    else ["pip", "install", "-r", "/sandbox/requirements.txt"]
  | none => ["pip", "install", "-r", "/sandbox/requirements.txt"]

/-- The pip-install step (src/utils/file_manager.py:400-424): run the
chosen install command; on non-zero exit return its result immediately
(skipping execution), on success persist the hash marker and fall through
to execution. -/
def phasePip (env : Env) (files : FileSet) (main_file : String) (timeout : Nat)
    (reqUsed : Option String) (t : List Cmd) : RunOut :=
  let pipCmd := pipCmdFor reqUsed
  withExec env.pipInstall files (t ++ [.pipInstallCmd pipCmd]) fun pr =>
    if pr.exitCode != 0 then
      ⟨⟨pr.stdout, pr.stderr, pr.exitCode⟩, files, t ++ [.pipInstallCmd pipCmd]⟩
    else
      withExec env.storeHash files (t ++ [.pipInstallCmd pipCmd, .storeHashCmd]) fun _ =>
        phaseExec env files main_file timeout (t ++ [.pipInstallCmd pipCmd, .storeHashCmd])

/-- The install decision chain (src/utils/file_manager.py:400-431): install
when needed and requirements.txt exists in the container; else when a
manifest was resolved and the file exists, just list packages (debug); else
skip straight to execution. -/
def phaseInstallCore (env : Env) (files : FileSet) (main_file : String) (timeout : Nat)
    (reqContent reqUsed : Option String) (need : Bool) (cr : ExecResult) (t : List Cmd) : RunOut :=
  if need && cr.exitCode == 0 then phasePip env files main_file timeout reqUsed t
  else if reqContent.isSome && cr.exitCode == 0 then
    withExec env.pipList files (t ++ [.pipListCmd]) fun _ =>
      phaseExec env files main_file timeout (t ++ [.pipListCmd])
  else phaseExec env files main_file timeout t

/-- Existence check of /sandbox/requirements.txt plus the debug `cat`
(src/utils/file_manager.py:392-399), then the install decision. -/
def phaseInstall (env : Env) (files : FileSet) (main_file : String) (timeout : Nat)
    (reqContent reqUsed : Option String) (need : Bool) (t : List Cmd) : RunOut :=
  withExec env.checkReq files (t ++ [.checkReqExists]) fun cr =>
    if cr.exitCode == 0 && strContains cr.stdout "exists" then
      withExec env.catReq files (t ++ [.checkReqExists, .catReqFile]) fun _ =>
        phaseInstallCore env files main_file timeout reqContent reqUsed need cr
          (t ++ [.checkReqExists, .catReqFile])
    else phaseInstallCore env files main_file timeout reqContent reqUsed need cr
      (t ++ [.checkReqExists])

/-- Hash-cache decision (src/utils/file_manager.py:374-390): when a
manifest was resolved, compare its SHA-256 with the marker stored in the
container; on mismatch force installation, on match run the Django
sentinel check and force installation only if it fails (otherwise keep the
earlier `need` value, which is true only for the manage.py special case). -/
def phaseHash (env : Env) (files : FileSet) (main_file : String) (timeout : Nat)
    (reqContent reqUsed : Option String) (need0 : Bool) (t : List Cmd) : RunOut :=
  match reqContent with
  | none => phaseInstall env files main_file timeout none reqUsed need0 t
  | some rc =>
    let currentHash := sha256hex rc
    withExec env.catHash files (t ++ [.catHashFile]) fun phr =>
      let prevHash : Option String := if phr.exitCode == 0 then some (pyStrip phr.stdout) else none
      if prevHash != some currentHash then
        phaseInstall env files main_file timeout (some rc) reqUsed true (t ++ [.catHashFile])
      else
        withExec env.djangoCheck files (t ++ [.catHashFile, .djangoImportCheck]) fun dc =>
          phaseInstall env files main_file timeout (some rc) reqUsed
            (if dc.exitCode != 0 then true else need0) (t ++ [.catHashFile, .djangoImportCheck])

/-- GUI system-package step (src/utils/file_manager.py:358-373): when some
.py member mentions tkinter, run apt-get once (its result is only logged). -/
def phaseGui (env : Env) (files : FileSet) (main_file : String) (timeout : Nat)
    (reqContent reqUsed : Option String) (need0 : Bool) (t : List Cmd) : RunOut :=
  let hasTk := files.any fun kv =>
    pyEndsWith kv.1 ".py" && (strContains kv.2 "tkinter" || strContains kv.2 "import tk")
  if hasTk then
    withExec env.guiInstall files (t ++ [.aptGetGui]) fun _ =>
      phaseHash env files main_file timeout reqContent reqUsed need0 (t ++ [.aptGetGui])
  else phaseHash env files main_file timeout reqContent reqUsed need0 t

/-- `DockerSandbox.run_code` (src/utils/file_manager.py:240-476) in the
call shape the orchestrator uses: `files` given (and non-empty, since the
entry point is a key), `code`/`test_code` None.  The try body starts the
container, prepares and copies the files, decides and performs dependency
installation, and executes; `except subprocess.TimeoutExpired` yields the
124 sentinel and `except Exception` an exit-1 result carrying the message,
so the function always returns a result dict and never raises. -/
def run_code (env : Env) (files0 : FileSet) (main_file : String) (timeout : Nat) : RunOut :=
  match env.startResult with
  | .error msg => ⟨⟨"", msg, 1⟩, files0, [.dockerStart]⟩
  | .ok _ =>
    let p := prepareFiles files0
    match env.copyResult with
    | .error msg => ⟨⟨"", msg, 1⟩, p.1, [.dockerStart, .copyFiles]⟩
    | .ok _ =>
      phaseGui env p.1 main_file timeout p.2.1 p.2.2
        (main_file == "manage.py" && p.2.1.isSome) [.dockerStart, .copyFiles]

/-- Is a command the package-manager install? -/
def isPipInstall : Cmd → Bool
  | .pipInstallCmd _ => true
  | _ => false

/-- Was a package-manager install issued? -/
def hasPipInstall (t : List Cmd) : Bool := t.any isPipInstall

/-- Is a command the entry-point / test-runner execution? -/
def isRunMain : Cmd → Bool
  | .runMain _ _ => true
  | _ => false

/-- Was the entry point (or test runner) executed? -/
def hasRunMain (t : List Cmd) : Bool := t.any isRunMain

/-! ## The self-healing repair loop (src/app.py:2333-2408)

The external patch generator (the `generate_with_claude` call plus the
regex extraction of `<<FILENAME:...>>` blocks, src/app.py:2394-2403) is
modelled as an oracle mapping the attempt index to either a raised
exception (message) or the parsed, possibly empty, path-to-content update
list.  Likewise the Docker world of the i-th `run_code` call is `envs i`. -/

/-- One history record: the snapshot `dict(files)` taken after the run
(hence after any in-place mutation by run_code) and the run's result
(src/app.py:2354). -/
structure HistEntry where
  files : FileSet
  result : ExecResult
deriving Repr, DecidableEq

/-- Exceptions that can escape `ai_self_healing_workflow`: the ValueError
for a missing entry point (src/app.py:2342), any exception raised by the
patch-generator call (src/app.py:2394 via 2304-2329), and the
UnboundLocalError hit at the return statement when the loop body never ran
(max_attempts = 0, src/app.py:2408 reads the unassigned `result`). -/
inductive WfErr where
  | precondition (msg : String)
  | patchGenError (msg : String)
  | unboundLocal
deriving Repr, DecidableEq

/-- State carried out of the while loop: files, history, the last run's
result (none iff the loop body never executed), a pending exception from
the patch generator, the number of run_code calls, and the concatenated
container-command trace. -/
structure LoopOut where
  files : FileSet
  hist : List HistEntry
  last : Option ExecResult
  err : Option WfErr
  runs : Nat
  trace : List Cmd
deriving Repr, DecidableEq

/-- The `while attempt < max_attempts` loop (src/app.py:2351-2407):
run, append history, break on exit code 0, otherwise consult the patch
generator (whose exception would propagate), merge a non-empty update map,
and continue with the attempt counter bumped.  `remaining` is
`max_attempts - attempt` and `i` the attempt index. -/
def healLoop (envs : Nat → Env) (patches : Nat → Except String (List (String × String)))
    (main_file : String) (timeout : Nat) :
    Nat → Nat → FileSet → List HistEntry → Option ExecResult → Nat → List Cmd → LoopOut
  | 0, _, files, hist, last, runs, tr => ⟨files, hist, last, none, runs, tr⟩
  | remaining + 1, i, files, hist, _, runs, tr =>
    let out := run_code (envs i) files main_file timeout
    let hist2 := hist ++ [⟨out.files, out.result⟩]
    let tr2 := tr ++ out.trace
    if out.result.exitCode == 0 then
      ⟨out.files, hist2, some out.result, none, runs + 1, tr2⟩
    else
      match patches i with
      | .error msg => ⟨out.files, hist2, some out.result, some (.patchGenError msg), runs + 1, tr2⟩
      | .ok upd =>
        let files2 := if upd.isEmpty then out.files else dictUpdate out.files upd
        healLoop envs patches main_file timeout remaining (i + 1) files2 hist2 (some out.result) (runs + 1) tr2

/-- The record `ai_self_healing_workflow` returns (src/app.py:2408). -/
structure WfRecord where
  final_files : FileSet
  history : List HistEntry
  success : Bool
  output : String
  error : String
deriving Repr, DecidableEq

/-- The guarded loop invocation shared by the workflow and its
run-count/trace observers: none when the entry-point precondition fails
(the ValueError is raised before the sandbox object even exists). -/
def healOut (envs : Nat → Env) (patches : Nat → Except String (List (String × String)))
    (project_files : FileSet) (main_file : String) (max_attempts : Nat) : Option LoopOut :=
  if (dictGet project_files main_file).isSome then
    some (healLoop envs patches main_file 540 max_attempts 0 project_files [] none 0 [])
  else none

/-- `ai_self_healing_workflow` (src/app.py:2333-2408).  `test_file` is only
read into the unused `test_code` local, so it does not influence the
result; run_code is called with its default 540-second timeout.  The
function either raises (error cases of `WfErr`) or returns the final
record; `success` is `result["exit_code"] == 0` for the last run. -/
def ai_self_healing_workflow (envs : Nat → Env)
    (patches : Nat → Except String (List (String × String)))
    (project_files : FileSet) (main_file test_file : String) (max_attempts : Nat) :
    Except WfErr WfRecord :=
  let _ := test_file
  match healOut envs patches project_files main_file max_attempts with
  | none => .error (.precondition "main_file must be present in project_files for healing workflow")
  | some out =>
    match out.err with
    | some e => .error e
    | none =>
      match out.last with
      | none => .error .unboundLocal
      | some res => .ok ⟨out.files, out.hist, res.exitCode == 0, res.stdout, res.stderr⟩

/-- Number of `sandbox.run_code` calls a workflow invocation performs. -/
def wfRuns (envs : Nat → Env) (patches : Nat → Except String (List (String × String)))
    (project_files : FileSet) (main_file : String) (max_attempts : Nat) : Nat :=
  match healOut envs patches project_files main_file max_attempts with
  | none => 0
  | some out => out.runs

/-- All container commands a workflow invocation issues. -/
def wfTrace (envs : Nat → Env) (patches : Nat → Except String (List (String × String)))
    (project_files : FileSet) (main_file : String) (max_attempts : Nat) : List Cmd :=
  match healOut envs patches project_files main_file max_attempts with
  | none => []
  | some out => out.trace

/-! ## Structural lemmas about run_code's phases -/

theorem phaseExec_files (env : Env) (files : FileSet) (mf : String) (tmo : Nat) (t : List Cmd) :
    (phaseExec env files mf tmo t).files = files := by
  unfold phaseExec withExec
  cases env.mainExec <;> rfl

theorem phasePip_files (env : Env) (files : FileSet) (mf : String) (tmo : Nat)
    (u : Option String) (t : List Cmd) : (phasePip env files mf tmo u t).files = files := by
  unfold phasePip withExec
  cases env.pipInstall with
  | timeout => rfl
  | ok pr =>
    simp only
    split
    · rfl
    · cases env.storeHash with
      | timeout => rfl
      | ok r => exact phaseExec_files ..

theorem phaseInstallCore_files (env : Env) (files : FileSet) (mf : String) (tmo : Nat)
    (rc u : Option String) (need : Bool) (cr : ExecResult) (t : List Cmd) :
    (phaseInstallCore env files mf tmo rc u need cr t).files = files := by
  unfold phaseInstallCore withExec
  split
  · exact phasePip_files ..
  split
  · cases env.pipList with
    | timeout => rfl
    | ok r => exact phaseExec_files ..
  · exact phaseExec_files ..

theorem phaseInstall_files (env : Env) (files : FileSet) (mf : String) (tmo : Nat)
    (rc u : Option String) (need : Bool) (t : List Cmd) :
    (phaseInstall env files mf tmo rc u need t).files = files := by
  unfold phaseInstall withExec
  cases env.checkReq with
  | timeout => rfl
  | ok cr =>
    simp only
    split
    · cases env.catReq with
      | timeout => rfl
      | ok r => exact phaseInstallCore_files ..
    · exact phaseInstallCore_files ..

theorem phaseHash_files (env : Env) (files : FileSet) (mf : String) (tmo : Nat)
    (rc u : Option String) (need0 : Bool) (t : List Cmd) :
    (phaseHash env files mf tmo rc u need0 t).files = files := by
  unfold phaseHash withExec
  cases rc with
  | none => exact phaseInstall_files ..
  | some c =>
    cases env.catHash with
    | timeout => rfl
    | ok phr =>
      simp only
      split <;> split
      any_goals exact phaseInstall_files ..
      all_goals
        cases env.djangoCheck with
        | timeout => rfl
        | ok dc => exact phaseInstall_files ..

theorem phaseGui_files (env : Env) (files : FileSet) (mf : String) (tmo : Nat)
    (rc u : Option String) (need0 : Bool) (t : List Cmd) :
    (phaseGui env files mf tmo rc u need0 t).files = files := by
  simp only [phaseGui, withExec]
  cases env.guiInstall <;> split <;>
    first
      | rfl
      | exact phaseHash_files ..

/-- run_code leaves the caller's dict untouched exactly when file
preparation does; in particular a recognized manifest suppresses mutation
(the only mutation is the synthesized requirements.txt). -/
theorem run_code_files (env : Env) (files0 : FileSet) (mf : String) (tmo : Nat) :
    (run_code env files0 mf tmo).files = files0 ∨
      (run_code env files0 mf tmo).files = (prepareFiles files0).1 := by
  unfold run_code
  cases env.startResult with
  | error msg => exact Or.inl rfl
  | ok u =>
    cases env.copyResult with
    | error msg => exact Or.inr rfl
    | ok u2 => exact Or.inr (phaseGui_files ..)

/-- With a recognized manifest present, run_code returns the input dict
unchanged. -/
theorem run_code_files_manifest (env : Env) (files0 : FileSet) (mf : String) (tmo : Nat)
    (nc : String × String) (h : findManifest files0 = some nc) :
    (run_code env files0 mf tmo).files = files0 := by
  have hp : (prepareFiles files0).1 = files0 := by
    unfold prepareFiles
    rw [h]
  rcases run_code_files env files0 mf tmo with h1 | h1
  · exact h1
  · rw [h1, hp]

/-! ## Trace lemmas: which phases issue which commands -/

theorem phaseExec_trace (env : Env) (files : FileSet) (mf : String) (tmo : Nat) (t : List Cmd) :
    ∃ c u, (phaseExec env files mf tmo t).trace = t ++ [Cmd.runMain c u] := by
  simp only [phaseExec, withExec]
  cases env.mainExec <;> exact ⟨_, _, rfl⟩

theorem hasPipInstall_append_false (t l : List Cmd) (h : hasPipInstall l = false) :
    hasPipInstall (t ++ l) = hasPipInstall t := by
  unfold hasPipInstall at *
  rw [List.any_append, h, Bool.or_false]

theorem hasRunMain_append_false (t l : List Cmd) (h : hasRunMain l = false) :
    hasRunMain (t ++ l) = hasRunMain t := by
  unfold hasRunMain at *
  rw [List.any_append, h, Bool.or_false]

theorem phaseExec_pip (env : Env) (files : FileSet) (mf : String) (tmo : Nat) (t : List Cmd) :
    hasPipInstall (phaseExec env files mf tmo t).trace = hasPipInstall t := by
  obtain ⟨c, u, h⟩ := phaseExec_trace env files mf tmo t
  rw [h]
  exact hasPipInstall_append_false _ _ rfl

theorem phaseInstallCore_pip_false (env : Env) (files : FileSet) (mf : String) (tmo : Nat)
    (rc u : Option String) (cr : ExecResult) (t : List Cmd) :
    hasPipInstall (phaseInstallCore env files mf tmo rc u false cr t).trace
      = hasPipInstall t := by
  simp only [phaseInstallCore, withExec]
  split
  · next h => simp at h
  · split
    · cases env.pipList with
      | timeout => exact hasPipInstall_append_false _ _ rfl
      | ok r =>
        rw [phaseExec_pip]
        exact hasPipInstall_append_false _ _ rfl
    · exact phaseExec_pip ..

theorem phaseInstall_pip_false (env : Env) (files : FileSet) (mf : String) (tmo : Nat)
    (rc u : Option String) (t : List Cmd) :
    hasPipInstall (phaseInstall env files mf tmo rc u false t).trace = hasPipInstall t := by
  simp only [phaseInstall, withExec]
  cases env.checkReq with
  | timeout => exact hasPipInstall_append_false _ _ rfl
  | ok cr =>
    simp only
    split
    · cases env.catReq with
      | timeout => exact hasPipInstall_append_false _ _ rfl
      | ok r =>
        rw [phaseInstallCore_pip_false]
        exact hasPipInstall_append_false _ _ rfl
    · rw [phaseInstallCore_pip_false]
      exact hasPipInstall_append_false _ _ rfl

/-- With a stored hash equal to the current manifest hash, a passing
sentinel check and no manage.py special case, the hash phase never issues
an install. -/
theorem phaseHash_pip_match (env : Env) (files : FileSet) (mf : String) (tmo : Nat)
    (rc2 : String) (u : Option String) (chr dc : ExecResult) (t : List Cmd)
    (hcat : env.catHash = .ok chr) (hrc : chr.exitCode = 0)
    (hmatch : pyStrip chr.stdout = sha256hex rc2)
    (hdj : env.djangoCheck = .ok dc) (hdc : dc.exitCode = 0) :
    hasPipInstall (phaseHash env files mf tmo (some rc2) u false t).trace = hasPipInstall t := by
  simp only [phaseHash, withExec, hcat, hdj, hrc, hmatch, hdc]
  simp only [beq_self_eq_true, if_true, bne_self_eq_false, Bool.false_eq_true, if_false]
  rw [phaseInstall_pip_false]
  refine hasPipInstall_append_false _ _ ?_
  rfl

/-- Lift of `phaseHash_pip_match` over the GUI system-package step. -/
theorem phaseGui_pip_match (env : Env) (files : FileSet) (mf : String) (tmo : Nat)
    (rc2 : String) (u : Option String) (chr dc : ExecResult) (t : List Cmd)
    (hcat : env.catHash = .ok chr) (hrc : chr.exitCode = 0)
    (hmatch : pyStrip chr.stdout = sha256hex rc2)
    (hdj : env.djangoCheck = .ok dc) (hdc : dc.exitCode = 0) :
    hasPipInstall (phaseGui env files mf tmo (some rc2) u false t).trace = hasPipInstall t := by
  simp only [phaseGui, withExec]
  split
  · cases env.guiInstall with
    | timeout => exact hasPipInstall_append_false t [Cmd.aptGetGui] rfl
    | ok r =>
      exact (phaseHash_pip_match env files mf tmo rc2 u chr dc (t ++ [Cmd.aptGetGui])
        hcat hrc hmatch hdj hdc).trans (hasPipInstall_append_false t [Cmd.aptGetGui] rfl)
  · exact phaseHash_pip_match _ _ _ _ _ _ _ _ _ hcat hrc hmatch hdj hdc

/-! ## Reachability: a run either hits the install / execution step or
issues neither -/

theorem phasePip_exec_cases (env : Env) (files : FileSet) (mf : String) (tmo : Nat)
    (u : Option String) (t : List Cmd) :
    (∃ t2, phasePip env files mf tmo u t = phaseExec env files mf tmo t2) ∨
      hasRunMain (phasePip env files mf tmo u t).trace = hasRunMain t := by
  simp only [phasePip, withExec]
  cases env.pipInstall with
  | timeout =>
    right
    refine hasRunMain_append_false _ _ ?_
    rfl
  | ok pr =>
    simp only
    split
    · right
      refine hasRunMain_append_false _ _ ?_
      rfl
    · cases env.storeHash with
      | timeout =>
        right
        refine hasRunMain_append_false _ _ ?_
        rfl
      | ok r => exact Or.inl ⟨_, rfl⟩

theorem phaseInstallCore_exec_cases (env : Env) (files : FileSet) (mf : String) (tmo : Nat)
    (rc u : Option String) (need : Bool) (cr : ExecResult) (t : List Cmd) :
    (∃ t2, phaseInstallCore env files mf tmo rc u need cr t = phaseExec env files mf tmo t2) ∨
      hasRunMain (phaseInstallCore env files mf tmo rc u need cr t).trace = hasRunMain t := by
  simp only [phaseInstallCore, withExec]
  split
  · exact phasePip_exec_cases ..
  · split
    · cases env.pipList with
      | timeout =>
        right
        refine hasRunMain_append_false _ _ ?_
        rfl
      | ok r => exact Or.inl ⟨_, rfl⟩
    · exact Or.inl ⟨_, rfl⟩

theorem phaseInstall_exec_cases (env : Env) (files : FileSet) (mf : String) (tmo : Nat)
    (rc u : Option String) (need : Bool) (t : List Cmd) :
    (∃ t2, phaseInstall env files mf tmo rc u need t = phaseExec env files mf tmo t2) ∨
      hasRunMain (phaseInstall env files mf tmo rc u need t).trace = hasRunMain t := by
  simp only [phaseInstall, withExec]
  cases env.checkReq with
  | timeout =>
    right
    refine hasRunMain_append_false _ _ ?_
    rfl
  | ok cr =>
    simp only
    split
    · cases env.catReq with
      | timeout =>
        right
        refine hasRunMain_append_false _ _ ?_
        rfl
      | ok r =>
        rcases phaseInstallCore_exec_cases env files mf tmo rc u need cr
            (t ++ [Cmd.checkReqExists, Cmd.catReqFile]) with ⟨t2, h⟩ | h
        · exact Or.inl ⟨t2, h⟩
        · right
          rw [h]
          refine hasRunMain_append_false _ _ ?_
          rfl
    · rcases phaseInstallCore_exec_cases env files mf tmo rc u need cr
          (t ++ [Cmd.checkReqExists]) with ⟨t2, h⟩ | h
      · exact Or.inl ⟨t2, h⟩
      · right
        rw [h]
        refine hasRunMain_append_false _ _ ?_
        rfl

theorem phaseHash_exec_cases (env : Env) (files : FileSet) (mf : String) (tmo : Nat)
    (rc u : Option String) (need0 : Bool) (t : List Cmd) :
    (∃ t2 need2, phaseHash env files mf tmo rc u need0 t
        = phaseInstall env files mf tmo rc u need2 t2 ∧
        hasRunMain t2 = hasRunMain t) ∨
      hasRunMain (phaseHash env files mf tmo rc u need0 t).trace = hasRunMain t := by
  simp only [phaseHash, withExec]
  cases rc with
  | none => exact Or.inl ⟨t, need0, rfl, rfl⟩
  | some c =>
    cases env.catHash with
    | timeout =>
      right
      refine hasRunMain_append_false _ _ ?_
      rfl
    | ok phr =>
      simp only
      split
      all_goals split
      · refine Or.inl ⟨t ++ [Cmd.catHashFile], true, rfl, ?_⟩
        refine hasRunMain_append_false _ _ ?_
        rfl
      · cases env.djangoCheck with
        | timeout => right; refine hasRunMain_append_false _ _ ?_; rfl
        | ok dc =>
          refine Or.inl ⟨t ++ [Cmd.catHashFile, Cmd.djangoImportCheck], _, rfl, ?_⟩
          refine hasRunMain_append_false _ _ ?_
          rfl
      · refine Or.inl ⟨t ++ [Cmd.catHashFile], true, rfl, ?_⟩
        refine hasRunMain_append_false _ _ ?_
        rfl
      · cases env.djangoCheck with
        | timeout => right; refine hasRunMain_append_false _ _ ?_; rfl
        | ok dc =>
          refine Or.inl ⟨t ++ [Cmd.catHashFile, Cmd.djangoImportCheck], _, rfl, ?_⟩
          refine hasRunMain_append_false _ _ ?_
          rfl

theorem phaseGui_exec_cases (env : Env) (files : FileSet) (mf : String) (tmo : Nat)
    (rc u : Option String) (need0 : Bool) (t : List Cmd) :
    (∃ t2 need2, phaseGui env files mf tmo rc u need0 t
        = phaseInstall env files mf tmo rc u need2 t2 ∧
        hasRunMain t2 = hasRunMain t) ∨
      hasRunMain (phaseGui env files mf tmo rc u need0 t).trace = hasRunMain t := by
  simp only [phaseGui, withExec]
  split
  · cases env.guiInstall with
    | timeout =>
      right
      refine hasRunMain_append_false _ _ ?_
      rfl
    | ok r =>
      rcases phaseHash_exec_cases env files mf tmo rc u need0 (t ++ [Cmd.aptGetGui])
        with ⟨t2, need2, h1, h2⟩ | h
      · refine Or.inl ⟨t2, need2, h1, ?_⟩
        rw [h2]
        refine hasRunMain_append_false _ _ ?_
        rfl
      · right
        rw [h]
        refine hasRunMain_append_false _ _ ?_
        rfl
  · exact phaseHash_exec_cases ..

theorem run_code_start_err (env : Env) (files0 : FileSet) (mf : String) (tmo : Nat)
    (msg : String) (hs : env.startResult = .error msg) :
    run_code env files0 mf tmo = ⟨⟨"", msg, 1⟩, files0, [.dockerStart]⟩ := by
  unfold run_code
  rw [hs]

theorem run_code_copy_err (env : Env) (files0 : FileSet) (mf : String) (tmo : Nat)
    (v : Unit) (msg : String) (hs : env.startResult = .ok v) (hc : env.copyResult = .error msg) :
    run_code env files0 mf tmo
      = ⟨⟨"", msg, 1⟩, (prepareFiles files0).1, [.dockerStart, .copyFiles]⟩ := by
  unfold run_code
  rw [hs, hc]

theorem run_code_ok (env : Env) (files0 : FileSet) (mf : String) (tmo : Nat)
    (v v2 : Unit) (hs : env.startResult = .ok v) (hc : env.copyResult = .ok v2) :
    run_code env files0 mf tmo
      = phaseGui env (prepareFiles files0).1 mf tmo (prepareFiles files0).2.1
          (prepareFiles files0).2.2 (mf == "manage.py" && (prepareFiles files0).2.1.isSome)
          [.dockerStart, .copyFiles] := by
  unfold run_code
  rw [hs, hc]

/-- Every run_code call either reduces to the execution phase on the
prepared files, or its trace contains no entry-point execution. -/
theorem run_code_exec_cases (env : Env) (files0 : FileSet) (mf : String) (tmo : Nat) :
    (∃ t2, run_code env files0 mf tmo
        = phaseExec env (prepareFiles files0).1 mf tmo t2) ∨
      hasRunMain (run_code env files0 mf tmo).trace = false := by
  cases hs : env.startResult with
  | error msg =>
    right
    rw [run_code_start_err env files0 mf tmo msg hs]
    rfl
  | ok v =>
    cases hc : env.copyResult with
    | error msg =>
      right
      rw [run_code_copy_err env files0 mf tmo v msg hs hc]
      rfl
    | ok v2 =>
      rw [run_code_ok env files0 mf tmo v v2 hs hc]
      rcases phaseGui_exec_cases env (prepareFiles files0).1 mf tmo (prepareFiles files0).2.1
          (prepareFiles files0).2.2 (mf == "manage.py" && (prepareFiles files0).2.1.isSome)
          [Cmd.dockerStart, Cmd.copyFiles] with ⟨t2, need2, h1, h2⟩ | h
      · rw [h1]
        rcases phaseInstall_exec_cases env (prepareFiles files0).1 mf tmo
            (prepareFiles files0).2.1 (prepareFiles files0).2.2 need2 t2 with ⟨t3, h3⟩ | h3
        · exact Or.inl ⟨t3, h3⟩
        · right
          rw [h3, h2]
          rfl
      · right
        rw [h]
        rfl

theorem phaseInstallCore_pip_cases (env : Env) (files : FileSet) (mf : String) (tmo : Nat)
    (rc u : Option String) (need : Bool) (cr : ExecResult) (t : List Cmd) :
    phaseInstallCore env files mf tmo rc u need cr t = phasePip env files mf tmo u t ∨
      hasPipInstall (phaseInstallCore env files mf tmo rc u need cr t).trace
        = hasPipInstall t := by
  simp only [phaseInstallCore, withExec]
  split
  · exact Or.inl rfl
  · split
    · cases env.pipList with
      | timeout => right; refine hasPipInstall_append_false _ _ ?_; rfl
      | ok r =>
        right
        rw [phaseExec_pip]
        refine hasPipInstall_append_false _ _ ?_
        rfl
    · right
      exact phaseExec_pip ..

theorem phaseInstall_pip_cases (env : Env) (files : FileSet) (mf : String) (tmo : Nat)
    (rc u : Option String) (need : Bool) (t : List Cmd) :
    (∃ t2, phaseInstall env files mf tmo rc u need t = phasePip env files mf tmo u t2 ∧
        hasPipInstall t2 = hasPipInstall t ∧ hasRunMain t2 = hasRunMain t) ∨
      hasPipInstall (phaseInstall env files mf tmo rc u need t).trace = hasPipInstall t := by
  simp only [phaseInstall, withExec]
  cases env.checkReq with
  | timeout => right; refine hasPipInstall_append_false _ _ ?_; rfl
  | ok cr =>
    simp only
    split
    · cases env.catReq with
      | timeout => right; refine hasPipInstall_append_false _ _ ?_; rfl
      | ok r =>
        rcases phaseInstallCore_pip_cases env files mf tmo rc u need cr
            (t ++ [Cmd.checkReqExists, Cmd.catReqFile]) with h | h
        · left
          refine ⟨t ++ [Cmd.checkReqExists, Cmd.catReqFile], h, ?_, ?_⟩
          · refine hasPipInstall_append_false _ _ ?_; rfl
          · refine hasRunMain_append_false _ _ ?_; rfl
        · right
          rw [h]
          refine hasPipInstall_append_false _ _ ?_
          rfl
    · rcases phaseInstallCore_pip_cases env files mf tmo rc u need cr
          (t ++ [Cmd.checkReqExists]) with h | h
      · left
        refine ⟨t ++ [Cmd.checkReqExists], h, ?_, ?_⟩
        · refine hasPipInstall_append_false _ _ ?_; rfl
        · refine hasRunMain_append_false _ _ ?_; rfl
      · right
        rw [h]
        refine hasPipInstall_append_false _ _ ?_
        rfl

theorem phaseHash_pip_cases (env : Env) (files : FileSet) (mf : String) (tmo : Nat)
    (rc u : Option String) (need0 : Bool) (t : List Cmd) :
    (∃ need2 t2, phaseHash env files mf tmo rc u need0 t
        = phaseInstall env files mf tmo rc u need2 t2 ∧
        hasPipInstall t2 = hasPipInstall t ∧ hasRunMain t2 = hasRunMain t) ∨
      hasPipInstall (phaseHash env files mf tmo rc u need0 t).trace = hasPipInstall t := by
  simp only [phaseHash, withExec]
  cases rc with
  | none => exact Or.inl ⟨need0, t, rfl, rfl, rfl⟩
  | some c =>
    cases env.catHash with
    | timeout => right; refine hasPipInstall_append_false _ _ ?_; rfl
    | ok phr =>
      simp only
      split
      all_goals split
      · left
        refine ⟨true, t ++ [Cmd.catHashFile], rfl, ?_, ?_⟩
        · refine hasPipInstall_append_false _ _ ?_; rfl
        · refine hasRunMain_append_false _ _ ?_; rfl
      · cases env.djangoCheck with
        | timeout => right; refine hasPipInstall_append_false _ _ ?_; rfl
        | ok dc =>
          left
          refine ⟨_, t ++ [Cmd.catHashFile, Cmd.djangoImportCheck], rfl, ?_, ?_⟩
          · refine hasPipInstall_append_false _ _ ?_; rfl
          · refine hasRunMain_append_false _ _ ?_; rfl
      · left
        refine ⟨true, t ++ [Cmd.catHashFile], rfl, ?_, ?_⟩
        · refine hasPipInstall_append_false _ _ ?_; rfl
        · refine hasRunMain_append_false _ _ ?_; rfl
      · cases env.djangoCheck with
        | timeout => right; refine hasPipInstall_append_false _ _ ?_; rfl
        | ok dc =>
          left
          refine ⟨_, t ++ [Cmd.catHashFile, Cmd.djangoImportCheck], rfl, ?_, ?_⟩
          · refine hasPipInstall_append_false _ _ ?_; rfl
          · refine hasRunMain_append_false _ _ ?_; rfl

theorem phaseGui_pip_cases (env : Env) (files : FileSet) (mf : String) (tmo : Nat)
    (rc u : Option String) (need0 : Bool) (t : List Cmd) :
    (∃ t2, phaseGui env files mf tmo rc u need0 t
        = phaseHash env files mf tmo rc u need0 t2 ∧
        hasPipInstall t2 = hasPipInstall t ∧ hasRunMain t2 = hasRunMain t) ∨
      hasPipInstall (phaseGui env files mf tmo rc u need0 t).trace = hasPipInstall t := by
  simp only [phaseGui, withExec]
  split
  · cases env.guiInstall with
    | timeout => right; refine hasPipInstall_append_false _ _ ?_; rfl
    | ok r =>
      left
      refine ⟨t ++ [Cmd.aptGetGui], rfl, ?_, ?_⟩
      · refine hasPipInstall_append_false _ _ ?_; rfl
      · refine hasRunMain_append_false _ _ ?_; rfl
  · exact Or.inl ⟨t, rfl, rfl, rfl⟩

/-- Every run_code call either reduces to the pip-install step on the
prepared files (with a pip-free, execution-free trace prefix), or issues no
install command at all. -/
theorem run_code_pip_cases (env : Env) (files0 : FileSet) (mf : String) (tmo : Nat) :
    (∃ t2, run_code env files0 mf tmo
        = phasePip env (prepareFiles files0).1 mf tmo (prepareFiles files0).2.2 t2 ∧
        hasPipInstall t2 = false ∧ hasRunMain t2 = false) ∨
      hasPipInstall (run_code env files0 mf tmo).trace = false := by
  cases hs : env.startResult with
  | error msg =>
    right
    rw [run_code_start_err env files0 mf tmo msg hs]
    rfl
  | ok v =>
    cases hc : env.copyResult with
    | error msg =>
      right
      rw [run_code_copy_err env files0 mf tmo v msg hs hc]
      rfl
    | ok v2 =>
      rw [run_code_ok env files0 mf tmo v v2 hs hc]
      rcases phaseGui_pip_cases env (prepareFiles files0).1 mf tmo (prepareFiles files0).2.1
          (prepareFiles files0).2.2 (mf == "manage.py" && (prepareFiles files0).2.1.isSome)
          [Cmd.dockerStart, Cmd.copyFiles] with ⟨t2, h1, h2, h3⟩ | h
      · rw [h1]
        rcases phaseHash_pip_cases env (prepareFiles files0).1 mf tmo (prepareFiles files0).2.1
            (prepareFiles files0).2.2 (mf == "manage.py" && (prepareFiles files0).2.1.isSome)
            t2 with ⟨need2, t3, h4, h5, h6⟩ | h4
        · rw [h4]
          rcases phaseInstall_pip_cases env (prepareFiles files0).1 mf tmo
              (prepareFiles files0).2.1 (prepareFiles files0).2.2 need2 t3
              with ⟨t4, h7, h8, h9⟩ | h7
          · left
            refine ⟨t4, h7, ?_, ?_⟩
            · rw [h8, h5, h2]; rfl
            · rw [h9, h6, h3]; rfl
          · right
            rw [h7, h5, h2]
            rfl
        · right
          rw [h4, h2]
          rfl
      · right
        rw [h]
        rfl

theorem phasePip_fail (env : Env) (files : FileSet) (mf : String) (tmo : Nat)
    (u : Option String) (t : List Cmd) (pr : ExecResult)
    (hpip : env.pipInstall = .ok pr) (hfail : pr.exitCode ≠ 0) :
    phasePip env files mf tmo u t
      = ⟨⟨pr.stdout, pr.stderr, pr.exitCode⟩, files, t ++ [Cmd.pipInstallCmd (pipCmdFor u)]⟩ := by
  have hb : (pr.exitCode != 0) = true := bne_iff_ne.mpr hfail
  simp only [phasePip, withExec, hpip, hb, if_true]

theorem phaseExec_timeout (env : Env) (files : FileSet) (mf : String) (tmo : Nat)
    (t : List Cmd) (h : env.mainExec = .timeout) :
    (phaseExec env files mf tmo t).result = timeoutResult := by
  simp only [phaseExec, withExec, h]

theorem phaseExec_ok_result (env : Env) (files : FileSet) (mf : String) (tmo : Nat)
    (t : List Cmd) (r : ExecResult) (h : env.mainExec = .ok r) :
    (phaseExec env files mf tmo t).result
      = ⟨r.stdout,
          if r.exitCode != 0 && (strContains (pyToLower r.stderr) "tkinter"
              || strContains (pyToLower r.stderr) "libtk")
          then r.stderr ++ guiNote else r.stderr,
          r.exitCode⟩ := by
  simp only [phaseExec, withExec, h]

theorem run_code_files_ok (env : Env) (files0 : FileSet) (mf : String) (tmo : Nat)
    (v : Unit) (hs : env.startResult = .ok v) :
    (run_code env files0 mf tmo).files = (prepareFiles files0).1 := by
  cases hc : env.copyResult with
  | error msg => rw [run_code_copy_err env files0 mf tmo v msg hs hc]
  | ok v2 =>
    rw [run_code_ok env files0 mf tmo v v2 hs hc]
    exact phaseGui_files ..

theorem dictGet_append_absent (fs : FileSet) (k v : String) (h : dictGet fs k = none) :
    dictGet (fs ++ [(k, v)]) k = some v := by
  induction fs with
  | nil => simp [dictGet]
  | cons kv rest ih =>
    unfold dictGet at h ⊢
    split at h
    · exact absurd h (by simp)
    · next hne =>
      simp only [List.cons_append]
      rw [if_neg hne]
      exact ih h

theorem findManifest_none_noreq (files : FileSet) (h : findManifest files = none) :
    dictGet files "requirements.txt" = none := by
  cases hg : dictGet files "requirements.txt" with
  | none => rfl
  | some c =>
    exfalso
    have : findManifest files = some ("requirements.txt", c) := by
      unfold findManifest requirements_files
      simp [List.findSome?, hg]
    rw [h] at this
    cases this

/-! ## Claims C6-C10: properties of run_code -/

/-- C6 (amended): on a call whose resolved manifest hash equals the hash
recorded in the container and whose Django sentinel import succeeds, and
whose main file is not manage.py (the Django special case that forces
installation regardless), run_code issues no package-manager install
command. -/
theorem C6_hash_cache_skips_install (env : Env) (files : FileSet) (mf : String) (tmo : Nat)
    (rc2 : String) (chr dc : ExecResult)
    (_hne : files ≠ [])
    (hprep : (prepareFiles files).2.1 = some rc2)
    (hmf : mf ≠ "manage.py")
    (hcat : env.catHash = .ok chr) (hrc : chr.exitCode = 0)
    (hmatch : pyStrip chr.stdout = sha256hex rc2)
    (hdj : env.djangoCheck = .ok dc) (hdc : dc.exitCode = 0) :
    hasPipInstall (run_code env files mf tmo).trace = false := by
  cases hs : env.startResult with
  | error msg => rw [run_code_start_err env files mf tmo msg hs]; rfl
  | ok v =>
    cases hcopy : env.copyResult with
    | error msg => rw [run_code_copy_err env files mf tmo v msg hs hcopy]; rfl
    | ok v2 =>
      rw [run_code_ok env files mf tmo v v2 hs hcopy]
      have hbeq : (mf == "manage.py") = false := beq_eq_false_iff_ne.mpr hmf
      rw [hprep]
      simp only [hbeq, Bool.false_and]
      rw [phaseGui_pip_match env (prepareFiles files).1 mf tmo rc2 (prepareFiles files).2.2
        chr dc [Cmd.dockerStart, Cmd.copyFiles] hcat hrc hmatch hdj hdc]
      rfl

/-- C7: whenever run_code issues the dependency-install command and that
command completes with a non-zero exit code, run_code returns exactly the
install command's stdout/stderr/exit code as the call's result, executes
neither the entry point nor the test runner, and (being a total function)
raises nothing. -/
theorem C7_install_failure_terminal (env : Env) (files : FileSet) (mf : String) (tmo : Nat)
    (pr : ExecResult)
    (_hne : files ≠ [])
    (hpip : env.pipInstall = .ok pr) (hfail : pr.exitCode ≠ 0)
    (hissued : hasPipInstall (run_code env files mf tmo).trace = true) :
    (run_code env files mf tmo).result = ⟨pr.stdout, pr.stderr, pr.exitCode⟩ ∧
      hasRunMain (run_code env files mf tmo).trace = false := by
  rcases run_code_pip_cases env files mf tmo with ⟨t2, h1, h2, h3⟩ | h1
  · rw [h1]
    rw [phasePip_fail env (prepareFiles files).1 mf tmo (prepareFiles files).2.2 t2 pr hpip hfail]
    refine ⟨rfl, ?_⟩
    have h4 := hasRunMain_append_false t2
      [Cmd.pipInstallCmd (pipCmdFor (prepareFiles files).2.2)] rfl
    rw [h4, h3]
  · rw [h1] at hissued
    cases hissued

/-- C8: when the executed entry-point (or test-runner) command exceeds its
timeout, run_code returns the synthetic sentinel result with exit code 124,
empty stdout and the timeout message in stderr; the timeout is data, not a
raised exception (run_code is total). -/
theorem C8_timeout_sentinel (env : Env) (files : FileSet) (mf : String) (tmo : Nat)
    (_hne : files ≠ [])
    (htime : env.mainExec = .timeout)
    (hexec : hasRunMain (run_code env files mf tmo).trace = true) :
    (run_code env files mf tmo).result = ⟨"", "Execution timed out", 124⟩ := by
  rcases run_code_exec_cases env files mf tmo with ⟨t2, h1⟩ | h1
  · rw [h1]
    exact phaseExec_timeout env (prepareFiles files).1 mf tmo t2 htime
  · rw [h1] at hexec
    cases hexec

/-- C9 (amended): stderr post-processing of the executed command: a failing
result whose stderr carries a GUI signature (tkinter/libtk, case folded)
gets the explanatory note appended after the unmodified original text; a
result without a signature is returned with stderr exactly the original;
and a successful result is returned unchanged even when a signature is
present. -/
theorem C9_stderr_postprocessing (env : Env) (files : FileSet) (mf : String) (tmo : Nat)
    (r : ExecResult)
    (_hne : files ≠ [])
    (hmain : env.mainExec = .ok r)
    (hexec : hasRunMain (run_code env files mf tmo).trace = true) :
    ((r.exitCode ≠ 0 ∧ (strContains (pyToLower r.stderr) "tkinter" = true ∨
        strContains (pyToLower r.stderr) "libtk" = true)) →
      (run_code env files mf tmo).result.stderr = r.stderr ++ guiNote) ∧
    ((strContains (pyToLower r.stderr) "tkinter" = false ∧
        strContains (pyToLower r.stderr) "libtk" = false) →
      (run_code env files mf tmo).result.stderr = r.stderr) ∧
    (r.exitCode = 0 → (run_code env files mf tmo).result.stderr = r.stderr) := by
  rcases run_code_exec_cases env files mf tmo with ⟨t2, h1⟩ | h1
  · rw [h1, phaseExec_ok_result env (prepareFiles files).1 mf tmo t2 r hmain]
    refine ⟨?_, ?_, ?_⟩
    · rintro ⟨hx, hsig⟩
      have hb : (r.exitCode != 0) = true := bne_iff_ne.mpr hx
      rcases hsig with h | h <;> simp [hb, h]
    · rintro ⟨hs1, hs2⟩
      simp [hs1, hs2]
    · intro hx
      have hb : (r.exitCode != 0) = false := by simp [hx]
      simp [hb]
  · rw [h1] at hexec
    cases hexec

/-- C10: a files dict with no recognized manifest but at least one detected
non-stdlib import in a .py member is mutated by run_code (once the
container has started): the synthesized requirements.txt is inserted under
the key "requirements.txt", which was absent from the input. -/
theorem C10_files_dict_mutated (env : Env) (files : FileSet) (mf : String) (tmo : Nat)
    (hstart : env.startResult = .ok ())
    (hnoman : findManifest files = none)
    (hdeps : detectedDeps files ≠ []) :
    dictGet (run_code env files mf tmo).files "requirements.txt"
        = some (synthesizeRequirements (detectedDeps files) (guiDeps files)) ∧
      dictGet files "requirements.txt" = none := by
  have hget := findManifest_none_noreq files hnoman
  refine ⟨?_, hget⟩
  rw [run_code_files_ok env files mf tmo () hstart]
  have hp : (prepareFiles files).1
      = dictSet files "requirements.txt" (synthesizeRequirements (detectedDeps files) (guiDeps files)) := by
    unfold prepareFiles
    rw [hnoman]
    simp [hdeps]
  rw [hp]
  unfold dictSet
  rw [hget]
  simp only [Option.isSome_none, Bool.false_eq_true, if_false]
  exact dictGet_append_absent files _ _ hget

/-! ## Loop invariants of the repair orchestrator -/

theorem healLoop_runs_le (envs : Nat → Env)
    (patches : Nat → Except String (List (String × String))) (mf : String) (tmo : Nat) :
    ∀ (r i : Nat) (files : FileSet) (hist : List HistEntry) (last : Option ExecResult)
      (runs : Nat) (tr : List Cmd),
      (healLoop envs patches mf tmo r i files hist last runs tr).runs ≤ runs + r := by
  intro r
  induction r with
  | zero =>
    intro i files hist last runs tr
    simp [healLoop]
  | succ n ih =>
    intro i files hist last runs tr
    simp only [healLoop]
    split
    · simp
    · split
      · simp
      · exact (ih ..).trans (by omega)

theorem healLoop_hist_runs (envs : Nat → Env)
    (patches : Nat → Except String (List (String × String))) (mf : String) (tmo : Nat) :
    ∀ (r i : Nat) (files : FileSet) (hist : List HistEntry) (last : Option ExecResult)
      (runs : Nat) (tr : List Cmd),
      (healLoop envs patches mf tmo r i files hist last runs tr).hist.length + runs
        = (healLoop envs patches mf tmo r i files hist last runs tr).runs + hist.length := by
  intro r
  induction r with
  | zero =>
    intro i files hist last runs tr
    simp [healLoop]
    omega
  | succ n ih =>
    intro i files hist last runs tr
    simp only [healLoop]
    split
    · simp
      omega
    · split
      · simp
        omega
      · next upd heq =>
        have key := ih (i + 1)
          (if upd.isEmpty then (run_code (envs i) files mf tmo).files
            else dictUpdate (run_code (envs i) files mf tmo).files upd)
          (hist ++ [⟨(run_code (envs i) files mf tmo).files,
            (run_code (envs i) files mf tmo).result⟩])
          (some (run_code (envs i) files mf tmo).result) (runs + 1)
          (tr ++ (run_code (envs i) files mf tmo).trace)
        simp only [List.length_append, List.length_cons, List.length_nil] at key ⊢
        omega

theorem healLoop_dropLast (envs : Nat → Env)
    (patches : Nat → Except String (List (String × String))) (mf : String) (tmo : Nat) :
    ∀ (r i : Nat) (files : FileSet) (hist : List HistEntry) (last : Option ExecResult)
      (runs : Nat) (tr : List Cmd),
      (∀ e ∈ hist, e.result.exitCode ≠ 0) →
      ∀ e ∈ (healLoop envs patches mf tmo r i files hist last runs tr).hist.dropLast,
        e.result.exitCode ≠ 0 := by
  intro r
  induction r with
  | zero =>
    intro i files hist last runs tr h e he
    exact h e (List.dropLast_subset _ he)
  | succ n ih =>
    intro i files hist last runs tr h
    simp only [healLoop]
    split
    · intro e he
      simp only [List.dropLast_concat] at he
      exact h e he
    · next hnz =>
      have hen : ((run_code (envs i) files mf tmo).result.exitCode : Int) ≠ 0 := by
        intro hc
        exact hnz (by simp [hc])
      split
      · intro e he
        simp only [List.dropLast_concat] at he
        exact h e he
      · refine ih (i + 1) _ _ _ (runs + 1) _ ?_
        intro e he
        rcases List.mem_append.mp he with h1 | h1
        · exact h e h1
        · rcases List.mem_singleton.mp h1 with rfl
          exact hen

theorem healLoop_last_inv (envs : Nat → Env)
    (patches : Nat → Except String (List (String × String))) (mf : String) (tmo : Nat) :
    ∀ (r i : Nat) (files : FileSet) (hist : List HistEntry) (last : Option ExecResult)
      (runs : Nat) (tr : List Cmd),
      last = hist.getLast?.map (fun e => e.result) →
      (healLoop envs patches mf tmo r i files hist last runs tr).last
        = ((healLoop envs patches mf tmo r i files hist last runs tr).hist.getLast?).map
            (fun e => e.result) := by
  intro r
  induction r with
  | zero =>
    intro i files hist last runs tr h
    simpa [healLoop] using h
  | succ n ih =>
    intro i files hist last runs tr h
    simp only [healLoop]
    split
    · simp [List.getLast?_concat]
    · split
      · simp [List.getLast?_concat]
      · exact ih (i + 1) _ _ _ (runs + 1) _ (by simp [List.getLast?_concat])

theorem healLoop_err_shape (envs : Nat → Env)
    (patches : Nat → Except String (List (String × String))) (mf : String) (tmo : Nat) :
    ∀ (r i : Nat) (files : FileSet) (hist : List HistEntry) (last : Option ExecResult)
      (runs : Nat) (tr : List Cmd),
      (healLoop envs patches mf tmo r i files hist last runs tr).err = none ∨
        ∃ m, (healLoop envs patches mf tmo r i files hist last runs tr).err
          = some (.patchGenError m) := by
  intro r
  induction r with
  | zero =>
    intro i files hist last runs tr
    exact Or.inl rfl
  | succ n ih =>
    intro i files hist last runs tr
    simp only [healLoop]
    split
    · exact Or.inl rfl
    · split
      · exact Or.inr ⟨_, rfl⟩
      · exact ih ..

theorem healLoop_last_some (envs : Nat → Env)
    (patches : Nat → Except String (List (String × String))) (mf : String) (tmo : Nat) :
    ∀ (r i : Nat) (files : FileSet) (hist : List HistEntry) (last : Option ExecResult)
      (runs : Nat) (tr : List Cmd),
      (1 ≤ r ∨ last.isSome = true) →
      ((healLoop envs patches mf tmo r i files hist last runs tr).last).isSome = true := by
  intro r
  induction r with
  | zero =>
    intro i files hist last runs tr h
    rcases h with h | h
    · omega
    · simpa [healLoop] using h
  | succ n ih =>
    intro i files hist last runs tr h
    simp only [healLoop]
    split
    · rfl
    · split
      · rfl
      · exact ih (i + 1) _ _ _ (runs + 1) _ (Or.inr rfl)

theorem healOut_pos (envs : Nat → Env)
    (patches : Nat → Except String (List (String × String))) (pf : FileSet) (mf : String)
    (N : Nat) (h : (dictGet pf mf).isSome = true) :
    healOut envs patches pf mf N = some (healLoop envs patches mf 540 N 0 pf [] none 0 []) := by
  unfold healOut
  rw [if_pos h]

theorem healOut_neg (envs : Nat → Env)
    (patches : Nat → Except String (List (String × String))) (pf : FileSet) (mf : String)
    (N : Nat) (h : (dictGet pf mf).isSome = false) :
    healOut envs patches pf mf N = none := by
  unfold healOut
  rw [if_neg (by simp [h])]

theorem healOut_some_elim (envs : Nat → Env)
    (patches : Nat → Except String (List (String × String))) (pf : FileSet) (mf : String)
    (N : Nat) (out : LoopOut) (h : healOut envs patches pf mf N = some out) :
    (dictGet pf mf).isSome = true ∧
      out = healLoop envs patches mf 540 N 0 pf [] none 0 [] := by
  unfold healOut at h
  split at h
  · exact ⟨by assumption, (Option.some.inj h).symm⟩
  · cases h

theorem wf_ok_iff (envs : Nat → Env)
    (patches : Nat → Except String (List (String × String))) (pf : FileSet)
    (mf tf : String) (N : Nat) (rec : WfRecord) :
    ai_self_healing_workflow envs patches pf mf tf N = .ok rec ↔
      ∃ out res, healOut envs patches pf mf N = some out ∧ out.err = none ∧
        out.last = some res ∧
        rec = ⟨out.files, out.hist, res.exitCode == 0, res.stdout, res.stderr⟩ := by
  unfold ai_self_healing_workflow
  cases hh : healOut envs patches pf mf N with
  | none => simp
  | some out =>
    cases ho : out.err with
    | some e => simp [ho]
    | none =>
      cases hl : out.last with
      | none => simp [ho, hl]
      | some res =>
        simp only [ho, hl]
        constructor
        · intro h
          exact ⟨out, res, rfl, ho, hl, (Except.ok.inj h).symm⟩
        · rintro ⟨out2, res2, h1, h2, h3, h4⟩
          obtain rfl := Option.some.inj h1
          obtain rfl := Option.some.inj (hl.symm.trans h3)
          rw [h4]

/-! ## Claims C1-C5: properties of the repair orchestrator -/

/-- C1: for every max_attempts = N, the workflow performs at most N
run_code calls, and each loop iteration performs exactly one run and
appends exactly one history record, so a normally returned history has one
entry per run performed. -/
theorem C1_run_budget (envs : Nat → Env)
    (patches : Nat → Except String (List (String × String)))
    (pf : FileSet) (mf tf : String) (N : Nat) :
    wfRuns envs patches pf mf N ≤ N ∧
      ∀ rec, ai_self_healing_workflow envs patches pf mf tf N = .ok rec →
        rec.history.length = wfRuns envs patches pf mf N := by
  constructor
  · unfold wfRuns
    cases hiso : (dictGet pf mf).isSome with
    | true =>
      rw [healOut_pos envs patches pf mf N hiso]
      simpa using healLoop_runs_le envs patches mf 540 N 0 pf [] none 0 []
    | false =>
      rw [healOut_neg envs patches pf mf N hiso]
      simp
  · intro rec hrec
    obtain ⟨out, res, hh, ho, hl, hr⟩ := (wf_ok_iff envs patches pf mf tf N rec).mp hrec
    obtain ⟨hiso, rfl⟩ := healOut_some_elim envs patches pf mf N out hh
    unfold wfRuns
    rw [healOut_pos envs patches pf mf N hiso, hr]
    have := healLoop_hist_runs envs patches mf 540 N 0 pf [] none 0 []
    simpa using this

/-- C2: if some attempt's run result has exit code 0, that attempt is the
last history entry (no further attempt follows it) and the returned record
has success = true. -/
theorem C2_success_stops (envs : Nat → Env)
    (patches : Nat → Except String (List (String × String)))
    (pf : FileSet) (mf tf : String) (N : Nat) (rec : WfRecord) (e : HistEntry)
    (hwf : ai_self_healing_workflow envs patches pf mf tf N = .ok rec)
    (he : e ∈ rec.history) (h0 : e.result.exitCode = 0) :
    rec.history.getLast? = some e ∧ rec.success = true := by
  obtain ⟨out, res, hh, ho, hl, hr⟩ := (wf_ok_iff envs patches pf mf tf N rec).mp hwf
  obtain ⟨hiso, rfl⟩ := healOut_some_elim envs patches pf mf N out hh
  have hdrop := healLoop_dropLast envs patches mf 540 N 0 pf [] none 0 [] (by simp)
  have hinv := healLoop_last_inv envs patches mf 540 N 0 pf [] none 0 [] (by simp)
  set out := healLoop envs patches mf 540 N 0 pf [] none 0 [] with hout
  have hhist : rec.history = out.hist := by rw [hr]
  have hne : out.hist ≠ [] := by
    intro hnil
    rw [hinv, hnil] at hl
    cases hl
  have hdecomp := List.dropLast_concat_getLast hne
  rw [hhist] at he
  rw [← hdecomp] at he
  rcases List.mem_append.mp he with h1 | h1
  · exact absurd h0 (hdrop e h1)
  · rcases List.mem_singleton.mp h1 with rfl
    have hgl : out.hist.getLast? = some (out.hist.getLast hne) :=
      List.getLast?_eq_getLast _ hne
    rw [hinv, hgl] at hl
    have hres : res = (out.hist.getLast hne).result := (Option.some.inj hl).symm
    constructor
    · rw [hhist]
      exact hgl
    · rw [hr]
      simp only
      rw [hres, h0]
      rfl

/-- C5: when the designated main file is not a key of the project files,
the workflow raises the precondition ValueError before any container
interaction: no run_code call is made and no container command is issued. -/
theorem C5_precondition_fails_fast (envs : Nat → Env)
    (patches : Nat → Except String (List (String × String)))
    (pf : FileSet) (mf tf : String) (N : Nat)
    (h : dictGet pf mf = none) :
    ai_self_healing_workflow envs patches pf mf tf N
        = .error (.precondition
            "main_file must be present in project_files for healing workflow") ∧
      wfRuns envs patches pf mf N = 0 ∧
      wfTrace envs patches pf mf N = [] := by
  have hiso : (dictGet pf mf).isSome = false := by rw [h]; rfl
  have hno := healOut_neg envs patches pf mf N hiso
  refine ⟨?_, ?_, ?_⟩
  · unfold ai_self_healing_workflow
    rw [hno]
  · unfold wfRuns
    rw [hno]
  · unfold wfTrace
    rw [hno]

/-- C3 (amended): with max_attempts = 1, a patch generator that always
yields an empty update map, the entry point present, a recognized manifest
in the input (so run_code performs no dict mutation), and a failing single
run, the workflow performs exactly one run_code call, returns
success = false, and final_files is identical to the input FileSet. -/
theorem C3_single_attempt (envs : Nat → Env)
    (patches : Nat → Except String (List (String × String)))
    (pf : FileSet) (mf tf : String) (nc : String × String)
    (hp : ∀ i, patches i = .ok [])
    (hm : (dictGet pf mf).isSome = true)
    (hman : findManifest pf = some nc)
    (hfail : (run_code (envs 0) pf mf 540).result.exitCode ≠ 0) :
    wfRuns envs patches pf mf 1 = 1 ∧
      ai_self_healing_workflow envs patches pf mf tf 1
        = .ok ⟨pf, [⟨pf, (run_code (envs 0) pf mf 540).result⟩], false,
            (run_code (envs 0) pf mf 540).result.stdout,
            (run_code (envs 0) pf mf 540).result.stderr⟩ := by
  have hfiles : (run_code (envs 0) pf mf 540).files = pf :=
    run_code_files_manifest (envs 0) pf mf 540 nc hman
  have hb : ((run_code (envs 0) pf mf 540).result.exitCode == 0) = false :=
    beq_eq_false_iff_ne.mpr hfail
  have hloop : healLoop envs patches mf 540 1 0 pf [] none 0 []
      = ⟨pf, [⟨pf, (run_code (envs 0) pf mf 540).result⟩],
          some (run_code (envs 0) pf mf 540).result, none, 1,
          (run_code (envs 0) pf mf 540).trace⟩ := by
    show healLoop envs patches mf 540 (0 + 1) 0 pf [] none 0 [] = _
    simp only [healLoop, hb, hp 0, hfiles]
    simp
  constructor
  · unfold wfRuns
    rw [healOut_pos envs patches pf mf 1 hm, hloop]
  · unfold ai_self_healing_workflow
    rw [healOut_pos envs patches pf mf 1 hm, hloop]
    simp [hb]

/-- C4 (amended): for max_attempts at least 1, the only exceptions that
escape the workflow are the missing-entry-point precondition error and
exceptions raised by the external patch-generator call; a container-runtime
failure or a timeout never escapes as a thrown error (run_code converts
them into ExecutionResult data). -/
theorem C4_error_propagation (envs : Nat → Env)
    (patches : Nat → Except String (List (String × String)))
    (pf : FileSet) (mf tf : String) (N : Nat) (e : WfErr)
    (hN : 1 ≤ N)
    (herr : ai_self_healing_workflow envs patches pf mf tf N = .error e) :
    (∃ m, e = .precondition m) ∨ ∃ m, e = .patchGenError m := by
  unfold ai_self_healing_workflow at herr
  split at herr
  · left
    exact ⟨_, (Except.error.inj herr).symm⟩
  · next out heq =>
    split at herr
    · next e2 heq2 =>
      obtain rfl := Except.error.inj herr
      obtain ⟨hiso, rfl⟩ := healOut_some_elim envs patches pf mf N out heq
      rcases healLoop_err_shape envs patches mf 540 N 0 pf [] none 0 []
        with hnone | ⟨m, hm2⟩
      · rw [hnone] at heq2
        cases heq2
      · rw [hm2] at heq2
        right
        exact ⟨m, (Option.some.inj heq2).symm⟩
    · next heq2 =>
      split at herr
      · next heq3 =>
        obtain ⟨hiso, rfl⟩ := healOut_some_elim envs patches pf mf N out heq
        have hsome := healLoop_last_some envs patches mf 540 N 0 pf [] none 0 [] (Or.inl hN)
        rw [heq3] at hsome
        cases hsome
      · cases herr

/-! ## Concrete instances used for witnesses and counterexamples -/

/-- A fully functioning container world whose entry-point run fails. -/
def envHappyFail : Env := {
  startResult := .ok (), copyResult := .ok (),
  guiInstall := .ok ⟨"", "", 0⟩, catHash := .ok ⟨"", "", 1⟩,
  djangoCheck := .ok ⟨"", "", 0⟩, checkReq := .ok ⟨"exists\n", "", 0⟩,
  catReq := .ok ⟨"", "", 0⟩, pipInstall := .ok ⟨"", "", 0⟩,
  storeHash := .ok ⟨"", "", 0⟩, pipList := .ok ⟨"", "", 0⟩,
  mainExec := .ok ⟨"", "boom", 1⟩ }

/-- Same world with a succeeding entry-point run. -/
def envHappyOk : Env := { envHappyFail with mainExec := .ok ⟨"ok", "", 0⟩ }

/-- A world whose container runtime is unreachable. -/
def envStartFail : Env :=
  { envHappyFail with startResult := .error "docker daemon unreachable" }

/-- A world where the install command fails with a resolver conflict. -/
def envPipFail : Env :=
  { envHappyFail with pipInstall := .ok ⟨"collecting", "ERROR: dependency conflict", 1⟩ }

/-- A world where the entry-point command hangs until the timeout. -/
def envMainTimeout : Env := { envHappyFail with mainExec := .timeout }

/-- A world whose stored manifest hash matches the current requests
manifest and whose sentinel import succeeds. -/
def envHashMatch : Env :=
  { envHappyFail with
    catHash := .ok ⟨sha256hex "requests\n", "", 0⟩,
    djangoCheck := .ok ⟨"Django installed", "", 0⟩ }

/-- A world whose stored manifest hash matches the current django manifest
and whose sentinel import succeeds. -/
def envHashMatchDjango : Env :=
  { envHappyFail with
    catHash := .ok ⟨sha256hex "django\n", "", 0⟩,
    djangoCheck := .ok ⟨"Django installed", "", 0⟩ }

/-- A world whose run succeeds but leaves a GUI signature in stderr. -/
def envGuiStderrOk : Env :=
  { envHappyFail with mainExec := .ok ⟨"done", "tkinter warning: using fallback", 0⟩ }

/-- A world whose run fails with a GUI signature in stderr. -/
def envGuiStderrFail : Env :=
  { envHappyFail with mainExec := .ok ⟨"", "No module named tkinter", 1⟩ }

/-- A project with an explicit manifest. -/
def filesMan : FileSet := [("main.py", "print(1)"), ("requirements.txt", "requests\n")]

/-- A Django-style project (manage.py entry point). -/
def filesDjango : FileSet := [("manage.py", "print(1)"), ("requirements.txt", "django\n")]

/-- A project with no manifest and one inferable dependency. -/
def filesNoMan : FileSet := [("main.py", "import flask\nprint(1)\n")]

/-- Observer: final_files of a normally returned workflow record. -/
def wfFinalFiles (x : Except WfErr WfRecord) : Option FileSet :=
  match x with
  | .ok r => some r.final_files
  | .error _ => none

/-- Observer: did the workflow raise? -/
def wfIsError (x : Except WfErr WfRecord) : Bool :=
  match x with
  | .error _ => true
  | .ok _ => false

/-- Observer: history of a normally returned workflow record. -/
def wfHistory (x : Except WfErr WfRecord) : Option (List HistEntry) :=
  match x with
  | .ok r => some r.history
  | .error _ => none

/-! ## Witnesses and counterexamples -/

/-- C1 witness: one failing attempt with budget 1 performs one run and
returns a one-entry history. -/
theorem C1_run_budget_witness :
    wfRuns (fun _ => envHappyFail) (fun _ => .ok []) filesMan "main.py" 1 ≤ 1 ∧
      (⟨filesMan, [⟨filesMan, ⟨"", "boom", 1⟩⟩], false, "", "boom"⟩ : WfRecord).history.length
        = wfRuns (fun _ => envHappyFail) (fun _ => .ok []) filesMan "main.py" 1 :=
  ⟨(C1_run_budget (fun _ => envHappyFail) (fun _ => .ok []) filesMan "main.py"
      "test_main.py" 1).1,
    (C1_run_budget (fun _ => envHappyFail) (fun _ => .ok []) filesMan "main.py"
      "test_main.py" 1).2
      ⟨filesMan, [⟨filesMan, ⟨"", "boom", 1⟩⟩], false, "", "boom"⟩ (by rfl)⟩

/-- C2 witness: a first-attempt success is the last (only) history entry
and yields success = true. -/
theorem C2_success_stops_witness :
    (⟨filesMan, [⟨filesMan, ⟨"ok", "", 0⟩⟩], true, "ok", ""⟩ : WfRecord).history.getLast?
        = some ⟨filesMan, ⟨"ok", "", 0⟩⟩ ∧
      (⟨filesMan, [⟨filesMan, ⟨"ok", "", 0⟩⟩], true, "ok", ""⟩ : WfRecord).success = true :=
  C2_success_stops (fun _ => envHappyOk) (fun _ => .ok []) filesMan "main.py" "test_main.py" 1
    ⟨filesMan, [⟨filesMan, ⟨"ok", "", 0⟩⟩], true, "ok", ""⟩
    ⟨filesMan, ⟨"ok", "", 0⟩⟩ (by rfl) (by simp) (by rfl)

/-- C3 counterexample: with max_attempts = 1 and an always-empty patch map,
an input without a manifest comes back with final_files strictly larger
than the input FileSet - run_code inserted a synthesized requirements.txt -
refuting the claim that final_files is always identical to the input. -/
theorem C3_counterexample :
    wfFinalFiles (ai_self_healing_workflow (fun _ => envHappyFail) (fun _ => .ok [])
        filesNoMan "main.py" "test_main.py" 1)
      = some (filesNoMan ++ [("requirements.txt", "# Auto-detected dependencies\nflask\n")]) ∧
    filesNoMan ++ [("requirements.txt", "# Auto-detected dependencies\nflask\n")]
      ≠ filesNoMan :=
  ⟨by rfl, by decide⟩

/-- C3 witness: with a manifest present and a failing run, one attempt,
success = false, final_files = input. -/
theorem C3_single_attempt_witness :
    wfRuns (fun _ => envHappyFail) (fun _ => .ok []) filesMan "main.py" 1 = 1 ∧
      ai_self_healing_workflow (fun _ => envHappyFail) (fun _ => .ok []) filesMan
          "main.py" "test_main.py" 1
        = .ok ⟨filesMan, [⟨filesMan, (run_code envHappyFail filesMan "main.py" 540).result⟩],
            false, (run_code envHappyFail filesMan "main.py" 540).result.stdout,
            (run_code envHappyFail filesMan "main.py" 540).result.stderr⟩ :=
  C3_single_attempt (fun _ => envHappyFail) (fun _ => .ok []) filesMan "main.py" "test_main.py"
    ("requirements.txt", "requests\n") (fun _ => rfl) (by rfl) (by rfl) (by decide)

/-- C4 counterexample: with the container runtime unreachable the workflow
does not raise; it returns a normal record whose history holds the infra
failure as an exit-1 ExecutionResult, refuting the claim that
infrastructure errors surface as thrown errors. -/
theorem C4_counterexample :
    wfIsError (ai_self_healing_workflow (fun _ => envStartFail) (fun _ => .ok [])
        filesMan "main.py" "test_main.py" 1) = false ∧
    wfHistory (ai_self_healing_workflow (fun _ => envStartFail) (fun _ => .ok [])
        filesMan "main.py" "test_main.py" 1)
      = some [⟨filesMan, ⟨"", "docker daemon unreachable", 1⟩⟩] :=
  ⟨by rfl, by rfl⟩

/-- C4 witness: a raised patch-generator exception escapes, and it is of
the patch-generator kind. -/
theorem C4_error_propagation_witness :
    (∃ m, WfErr.patchGenError "api down" = .precondition m) ∨
      ∃ m, WfErr.patchGenError "api down" = .patchGenError m :=
  C4_error_propagation (fun _ => envHappyFail) (fun _ => .error "api down") filesMan
    "main.py" "test_main.py" 1 (.patchGenError "api down") (by decide) (by rfl)

/-- C5 witness: a missing entry point raises the precondition error with
zero runs and an empty container-command trace. -/
theorem C5_precondition_fails_fast_witness :
    ai_self_healing_workflow (fun _ => envHappyFail) (fun _ => .ok []) filesMan "nope.py"
        "test_main.py" 3
      = .error (.precondition
          "main_file must be present in project_files for healing workflow") ∧
      wfRuns (fun _ => envHappyFail) (fun _ => .ok []) filesMan "nope.py" 3 = 0 ∧
      wfTrace (fun _ => envHappyFail) (fun _ => .ok []) filesMan "nope.py" 3 = [] :=
  C5_precondition_fails_fast (fun _ => envHappyFail) (fun _ => .ok []) filesMan "nope.py"
    "test_main.py" 3 (by rfl)

/-- C6 counterexample: for a manage.py project the hash stored in the
container equals the current manifest hash and the sentinel import passes,
yet the pip install command is still issued - the Django special case
forces installation, refuting the claim for every call. -/
theorem C6_counterexample :
    pyStrip (sha256hex "django\n") = sha256hex "django\n" ∧
      hasPipInstall (run_code envHashMatchDjango filesDjango "manage.py" 540).trace = true :=
  ⟨by decide, by decide⟩

/-- C6 witness: hash match plus passing sentinel on a non-Django project
skips the install. -/
theorem C6_hash_cache_skips_install_witness :
    hasPipInstall (run_code envHashMatch filesMan "main.py" 540).trace = false :=
  C6_hash_cache_skips_install envHashMatch filesMan "main.py" 540 "requests\n"
    ⟨sha256hex "requests\n", "", 0⟩ ⟨"Django installed", "", 0⟩
    (by decide) (by rfl) (by decide) (by rfl) (by rfl) (by decide) (by rfl) (by rfl)

/-- C7 witness: a failing pip install is returned as the call's result and
the entry point is not executed. -/
theorem C7_install_failure_terminal_witness :
    (run_code envPipFail filesMan "main.py" 540).result
        = ⟨"collecting", "ERROR: dependency conflict", 1⟩ ∧
      hasRunMain (run_code envPipFail filesMan "main.py" 540).trace = false :=
  C7_install_failure_terminal envPipFail filesMan "main.py" 540
    ⟨"collecting", "ERROR: dependency conflict", 1⟩ (by decide) (by rfl) (by decide) (by decide)

/-- C8 witness: a hung entry-point command yields the 124 sentinel result. -/
theorem C8_timeout_sentinel_witness :
    (run_code envMainTimeout filesMan "main.py" 540).result
      = ⟨"", "Execution timed out", 124⟩ :=
  C8_timeout_sentinel envMainTimeout filesMan "main.py" 540 (by decide) (by rfl) (by decide)

/-- C9 counterexample: a successful (exit 0) result whose stderr contains
the tkinter signature is returned with stderr unchanged - no note is
appended - refuting the unamended claim that every result with a GUI
signature gets the note. -/
theorem C9_counterexample :
    (run_code envGuiStderrOk filesMan "main.py" 540).result.stderr
        = "tkinter warning: using fallback" ∧
      strContains (pyToLower "tkinter warning: using fallback") "tkinter" = true ∧
      (run_code envGuiStderrOk filesMan "main.py" 540).result.exitCode = 0 ∧
      (run_code envGuiStderrOk filesMan "main.py" 540).result.stderr
        ≠ "tkinter warning: using fallback" ++ guiNote :=
  ⟨by rfl, by decide, by rfl, by decide⟩

/-- C9 witness: a failing run with a tkinter signature gets the note
appended after the unmodified original stderr. -/
theorem C9_stderr_postprocessing_witness :
    (run_code envGuiStderrFail filesMan "main.py" 540).result.stderr
      = "No module named tkinter" ++ guiNote :=
  (C9_stderr_postprocessing envGuiStderrFail filesMan "main.py" 540
      ⟨"", "No module named tkinter", 1⟩ (by decide) (by rfl) (by decide)).1
    ⟨by decide, Or.inl (by decide)⟩

/-- C10 witness: a manifest-less project with an inferable flask dependency
comes out of run_code with a synthesized requirements.txt inserted. -/
theorem C10_files_dict_mutated_witness :
    dictGet (run_code envHappyFail filesNoMan "main.py" 540).files "requirements.txt"
        = some (synthesizeRequirements (detectedDeps filesNoMan) (guiDeps filesNoMan)) ∧
      dictGet filesNoMan "requirements.txt" = none :=
  C10_files_dict_mutated envHappyFail filesNoMan "main.py" 540 (by rfl) (by rfl) (by decide)

end CodeGen
